import Mathlib

/-!
Verification of the asynchronous analysis pipeline of the psi-backend
repository: the status state machine driver (`analyze_outfit_image` in
`src/utils/llm.py`), the response normalizer (JSON extraction and color
canonicalization), and the record store update (`update_analysis_status`
in `src/database/db.py`).

Python strings are modelled as `List Char` (ASCII-level; Python's
Unicode-aware `str.lower`/`str.strip` coincide with this model on the
ASCII inputs the pipeline manipulates).  The Python exception discipline
is modelled with an `Except` monad over the exception classes the code
distinguishes; every modelled exception class is a subclass of Python's
`Exception`, which is what the driver's final `except Exception` clause
catches.
-/

namespace PsiBackend

/-- Python strings, modelled as lists of characters. -/
abbrev PyStr := List Char

/-- Shorthand: a Lean string literal as a `PyStr`. -/
def pys (s : String) : PyStr := s.toList

/-- The opening-brace character. -/
def lbrace : Char := Char.ofNat 123

/-- The closing-brace character. -/
def rbrace : Char := Char.ofNat 125

/-- Python `str.strip` whitespace (ASCII part): space, tab, newline,
carriage return, vertical tab, form feed. -/
def isPyWs (c : Char) : Bool :=
  c = ' ' || c = '\t' || c = '\n' || c = '\r' || c = Char.ofNat 11 || c = Char.ofNat 12

/-- Python `s.strip()`: drop leading and trailing whitespace. -/
def pyStrip (s : PyStr) : PyStr :=
  ((s.dropWhile isPyWs).reverse.dropWhile isPyWs).reverse

/-- Python `s.lower()` (ASCII model). -/
def pyLower (s : PyStr) : PyStr := s.map Char.toLower

/-- Python `s.startswith(p)`. -/
def pyStartswith (p s : PyStr) : Bool := p.isPrefixOf s

/-- Python `s.find(c)`: index of the first occurrence of `c`, `none`
standing for the sentinel `-1`. -/
def pyFind (c : Char) : PyStr → Option Nat
  | [] => none
  | x :: xs => if x = c then some 0 else (pyFind c xs).map (· + 1)

/-- Python `s.rfind(c)`: index of the last occurrence of `c`, `none`
standing for the sentinel `-1`. -/
def pyRFind (c : Char) : PyStr → Option Nat
  | [] => none
  | x :: xs =>
    match pyRFind c xs with
    | some i => some (i + 1)
    | none => if x = c then some 0 else none

/-- The fixed color-name → hex table `COLOR_NAME_MAP` of
`src/utils/llm.py` (lines 18-55), in source order. -/
def COLOR_NAME_MAP : List (PyStr × PyStr) :=
  [ (pys "red", pys "#EF4444")
  , (pys "crimson", pys "#DC143C")
  , (pys "dark red", pys "#8B0000")
  , (pys "pink", pys "#EC4899")
  , (pys "rose", pys "#F43F5E")
  , (pys "orange", pys "#F97316")
  , (pys "amber", pys "#FBBF24")
  , (pys "yellow", pys "#FBBF24")
  , (pys "lime", pys "#84CC16")
  , (pys "green", pys "#22C55E")
  , (pys "emerald", pys "#10B981")
  , (pys "teal", pys "#14B8A6")
  , (pys "cyan", pys "#06B6D4")
  , (pys "blue", pys "#3B82F6")
  , (pys "sky blue", pys "#0EA5E9")
  , (pys "indigo", pys "#4F46E5")
  , (pys "purple", pys "#A855F7")
  , (pys "violet", pys "#7C3AED")
  , (pys "magenta", pys "#D946EF")
  , (pys "white", pys "#FFFFFF")
  , (pys "gray", pys "#6B7280")
  , (pys "grey", pys "#6B7280")
  , (pys "dark gray", pys "#374151")
  , (pys "light gray", pys "#D1D5DB")
  , (pys "black", pys "#000000")
  , (pys "navy", pys "#000080")
  , (pys "brown", pys "#92400E")
  , (pys "gold", pys "#FFD700")
  , (pys "silver", pys "#C0C0C0")
  , (pys "beige", pys "#F5F5DC")
  , (pys "cream", pys "#FFFDD0")
  , (pys "olive", pys "#808000")
  , (pys "maroon", pys "#800000")
  , (pys "peach", pys "#FFDAB9")
  , (pys "lavender", pys "#E6E6FA")
  , (pys "charcoal", pys "#36454F")
  ]

/-- Python dict membership plus indexing `c in MAP` / `MAP[c]` on the
fixed table: first (and only) binding for the key. -/
def mapLookup : List (PyStr × PyStr) → PyStr → Option PyStr
  | [], _ => none
  | (k, v) :: rest, c => if k = c then some v else mapLookup rest c

/-- The accumulation loop of `convert_color_names_to_hex`
(`src/utils/llm.py` lines 60-72): `result = []` then one `append` per
element. -/
def convertLoop : List PyStr → List PyStr → List PyStr
  | [], result => result
  | color :: rest, result =>
    let c := pyLower (pyStrip color)
    if pyStartswith (pys "#") c && c.length == 7 then
      convertLoop rest (result ++ [c])
    else
      match mapLookup COLOR_NAME_MAP c with
      | some hex => convertLoop rest (result ++ [hex])
      | none => convertLoop rest (result ++ [pys "#9CA3AF"])

/-- Python `colors or []`: the list when truthy (non-`None`, non-empty),
else the empty list. -/
def pyOrEmptyList (colors : Option (List PyStr)) : List PyStr :=
  match colors with
  | none => []
  | some l => if l.isEmpty then [] else l

/-- `convert_color_names_to_hex` of `src/utils/llm.py` (lines 58-72). -/
def convert_color_names_to_hex (colors : Option (List PyStr)) : List PyStr :=
  convertLoop (pyOrEmptyList colors) []

/-! Spec-side definitions, written from the words of the specification
(`spec.md` §4.2 step 3), to be compared with the code-side definitions. -/

/-- Spec-side: a hexadecimal digit `[0-9a-fA-F]`. -/
def isHexDigitChar (c : Char) : Bool :=
  ('0' ≤ c && c ≤ '9') || ('a' ≤ c && c ≤ 'f') || ('A' ≤ c && c ≤ 'F')

/-- Spec-side: the regex `^#[0-9a-fA-F]{6}$` as a decidable predicate. -/
def isHex6 (s : PyStr) : Bool :=
  match s with
  | c :: rest => c == '#' && rest.length == 6 && rest.all isHexDigitChar
  | [] => false

/-- Per-element canonicalization as the amended claim C4 states it: the
trimmed lower-cased form is kept whenever it starts with `#` and has
length 7 (hex digits are not checked); otherwise the table hex under
case-insensitive trimmed lookup; otherwise the fallback `#9CA3AF`. -/
def specC4Step (color : PyStr) : PyStr :=
  let c := pyLower (pyStrip color)
  if pyStartswith (pys "#") c && c.length == 7 then c
  else
    match mapLookup COLOR_NAME_MAP c with
    | some hex => hex
    | none => pys "#9CA3AF"

theorem specC4Step_keep (color : PyStr)
    (h : (pyStartswith (pys "#") (pyLower (pyStrip color))
      && (pyLower (pyStrip color)).length == 7) = true) :
    specC4Step color = pyLower (pyStrip color) := by
  unfold specC4Step; rw [if_pos h]

theorem specC4Step_lookup (color hex : PyStr)
    (h : (pyStartswith (pys "#") (pyLower (pyStrip color))
      && (pyLower (pyStrip color)).length == 7) = false)
    (hm : mapLookup COLOR_NAME_MAP (pyLower (pyStrip color)) = some hex) :
    specC4Step color = hex := by
  unfold specC4Step; rw [if_neg (by simp [h]), hm]

theorem specC4Step_fallback (color : PyStr)
    (h : (pyStartswith (pys "#") (pyLower (pyStrip color))
      && (pyLower (pyStrip color)).length == 7) = false)
    (hm : mapLookup COLOR_NAME_MAP (pyLower (pyStrip color)) = none) :
    specC4Step color = pys "#9CA3AF" := by
  unfold specC4Step; rw [if_neg (by simp [h]), hm]

/-- The loop of `convert_color_names_to_hex` is an elementwise map. -/
theorem convertLoop_eq_map (cs : List PyStr) :
    ∀ acc, convertLoop cs acc = acc ++ cs.map specC4Step := by
  induction cs with
  | nil => intro acc; simp [convertLoop]
  | cons color rest ih =>
    intro acc
    rw [List.map_cons]
    rw [show convertLoop (color :: rest) acc =
      (let c := pyLower (pyStrip color)
       if pyStartswith (pys "#") c && c.length == 7 then
         convertLoop rest (acc ++ [c])
       else
         match mapLookup COLOR_NAME_MAP c with
         | some hex => convertLoop rest (acc ++ [hex])
         | none => convertLoop rest (acc ++ [pys "#9CA3AF"])) from rfl]
    by_cases h : (pyStartswith (pys "#") (pyLower (pyStrip color))
        && (pyLower (pyStrip color)).length == 7) = true
    · rw [specC4Step_keep color h]
      simp only [h, if_true, ih, List.append_assoc, List.singleton_append]
    · rw [Bool.not_eq_true] at h
      simp only [h, Bool.false_eq_true, if_false]
      cases hm : mapLookup COLOR_NAME_MAP (pyLower (pyStrip color)) with
      | some hex =>
        rw [specC4Step_lookup color hex h hm]
        simp [ih]
      | none =>
        rw [specC4Step_fallback color h hm]
        simp [ih]

/-- `convert_color_names_to_hex` on a present list is an elementwise map. -/
theorem convert_eq_map (colors : List PyStr) :
    convert_color_names_to_hex (some colors) = colors.map specC4Step := by
  unfold convert_color_names_to_hex pyOrEmptyList
  cases colors with
  | nil => simp [convertLoop]
  | cons c rest => simpa using convertLoop_eq_map (c :: rest) []

/-- Claim C4, counterexample: on the element `"#AB12CD"`, whose trimmed
lower-cased form `"#ab12cd"` matches the regex `^#[0-9a-fA-F]{6}$`, the
claim demands the element itself be kept, but the code replaces it by
the trimmed lower-cased form `"#ab12cd"`, which differs. -/
theorem C4_counterexample :
    isHex6 (pyLower (pyStrip (pys "#AB12CD"))) = true ∧
    convert_color_names_to_hex (some [pys "#AB12CD"]) = [pys "#ab12cd"] ∧
    (convert_color_names_to_hex (some [pys "#AB12CD"]) == [pys "#AB12CD"]) = false := by
  exact ⟨by decide, by decide, by decide⟩

/-- Claim C4 as amended: canonicalization replaces every element by its
trimmed lower-cased form `c` when `c` starts with `#` and has length 7
(the six remaining characters are not checked to be hex digits); else by
the table hex under case-insensitive trimmed lookup; else by the fixed
fallback `#9CA3AF` — and it never fails (it is a total elementwise map). -/
theorem C4_amended_canonicalization (colors : List PyStr) :
    convert_color_names_to_hex (some colors) = colors.map specC4Step :=
  convert_eq_map colors

/-- Claim C10: color canonicalization is length-preserving on every list
of strings and returns the empty list on a `None` or empty input. -/
theorem C10_length_preserving_and_total :
    convert_color_names_to_hex none = [] ∧
    convert_color_names_to_hex (some []) = [] ∧
    ∀ colors : List PyStr,
      (convert_color_names_to_hex (some colors)).length = colors.length := by
  refine ⟨rfl, rfl, fun colors => ?_⟩
  rw [convert_eq_map]
  simp

/-- Claim C7, counterexample: `"red"` canonicalizes to the table value
`"#EF4444"`, a valid hex string, but re-running canonicalization on
`["#EF4444"]` lower-cases it to `["#ef4444"]`, so re-running the
Normalizer on an already-canonicalized all-valid-hex list does not
return the same list. -/
theorem C7_counterexample :
    convert_color_names_to_hex (some [pys "red"]) = [pys "#EF4444"] ∧
    isHex6 (pys "#EF4444") = true ∧
    convert_color_names_to_hex (some [pys "#EF4444"]) = [pys "#ef4444"] ∧
    (convert_color_names_to_hex (some [pys "#EF4444"]) == [pys "#EF4444"]) = false := by
  exact ⟨by decide, by decide, by decide, by decide⟩

theorem mapLookup_mem :
    ∀ (m : List (PyStr × PyStr)) (c v : PyStr),
      mapLookup m c = some v → ∃ k, (k, v) ∈ m := by
  intro m
  induction m with
  | nil => intro c v h; simp [mapLookup] at h
  | cons kv rest ih =>
    obtain ⟨k, v'⟩ := kv
    intro c v h
    rw [show mapLookup ((k, v') :: rest) c =
      if k = c then some v' else mapLookup rest c from rfl] at h
    by_cases hk : k = c
    · rw [if_pos hk] at h
      obtain rfl : v' = v := by simpa using h
      exact ⟨k, by simp⟩
    · rw [if_neg hk] at h
      obtain ⟨k', hk'⟩ := ih c v h
      exact ⟨k', by simp [hk']⟩

/-- Every value of the fixed color table is itself of the kept shape:
its trimmed lower-cased form starts with `#` and has length 7. -/
theorem COLOR_NAME_MAP_values_keepable :
    ∀ p ∈ COLOR_NAME_MAP,
      (pyStartswith (pys "#") (pyLower (pyStrip p.2)) &&
        (pyLower (pyStrip p.2)).length == 7) = true := by decide

/-- A string is a fixed point of per-element canonicalization exactly
when it is already its own trimmed lower-cased form, starts with `#`
and has length 7: the table and fallback branches cannot produce their
input back, because every value they emit is of the kept shape and
would have been kept. -/
theorem specC4Step_fixed_iff (s : PyStr) :
    specC4Step s = s ↔
      (pyLower (pyStrip s) = s ∧ pyStartswith (pys "#") s = true ∧
        s.length = 7) := by
  constructor
  · intro h
    by_cases hcond : (pyStartswith (pys "#") (pyLower (pyStrip s))
        && (pyLower (pyStrip s)).length == 7) = true
    · rw [specC4Step_keep s hcond] at h
      rw [Bool.and_eq_true] at hcond
      refine ⟨h, ?_, ?_⟩
      · rw [← h]
        exact hcond.1
      · rw [← h]
        simpa using hcond.2
    · rw [Bool.not_eq_true] at hcond
      cases hm : mapLookup COLOR_NAME_MAP (pyLower (pyStrip s)) with
      | some hex =>
        rw [specC4Step_lookup s hex hcond hm] at h
        subst h
        obtain ⟨k, hk⟩ := mapLookup_mem COLOR_NAME_MAP _ _ hm
        have hval : (pyStartswith (pys "#") (pyLower (pyStrip hex)) &&
            (pyLower (pyStrip hex)).length == 7) = true :=
          COLOR_NAME_MAP_values_keepable _ hk
        rw [hcond] at hval
        exact absurd hval (by simp)
      | none =>
        rw [specC4Step_fallback s hcond hm] at h
        subst h
        exact absurd hcond (by decide)
  · rintro ⟨h1, h2, h3⟩
    have hcond : (pyStartswith (pys "#") (pyLower (pyStrip s))
        && (pyLower (pyStrip s)).length == 7) = true := by
      rw [h1]; simp [h2, h3]
    rw [specC4Step_keep s hcond, h1]

theorem list_map_eq_self_iff {α : Type} (f : α → α) :
    ∀ l : List α, l.map f = l ↔ ∀ x ∈ l, f x = x := by
  intro l
  induction l with
  | nil => simp
  | cons a t ih => simp [ih]

/-- Claim C7 as amended: re-running canonicalization returns a list
unchanged exactly when every element is already its own trimmed
lower-cased form, starts with `#` and has length 7 (table-produced
upper-case hex values, by contrast, get lower-cased by a second run). -/
theorem C7_amended_idempotent (colors : List PyStr) :
    convert_color_names_to_hex (some colors) = colors ↔
      ∀ s ∈ colors, pyLower (pyStrip s) = s ∧
        pyStartswith (pys "#") s = true ∧ s.length = 7 := by
  rw [convert_eq_map, list_map_eq_self_iff]
  exact ⟨fun h s hs => (specC4Step_fixed_iff s).mp (h s hs),
    fun h s hs => (specC4Step_fixed_iff s).mpr (h s hs)⟩

/-- Witness for C7 as amended: both directions exercised at concrete
lists — an already-lower-case list is returned unchanged, and a list
the second run changes has an element outside the kept shape. -/
theorem C7_amended_witness :
    convert_color_names_to_hex (some [pys "#ef4444", pys "#9ca3af"]) =
      [pys "#ef4444", pys "#9ca3af"] ∧
    ¬ ∀ s ∈ [pys "#EF4444"], pyLower (pyStrip s) = s ∧
        pyStartswith (pys "#") s = true ∧ s.length = 7 :=
  ⟨(C7_amended_idempotent [pys "#ef4444", pys "#9ca3af"]).mpr (by decide),
    by decide⟩

/-! JSON values, as produced by Python's `json.loads` and consumed by
`json.dumps`.  Numbers are modelled as exact rationals (Python uses
`int`/`float`; no property analyzed here depends on numeric values). -/

/-- A parsed JSON value. -/
inductive JsonValue where
  | null : JsonValue
  | bool (b : Bool) : JsonValue
  | num (q : Rat) : JsonValue
  | str (s : PyStr) : JsonValue
  | arr (elems : List JsonValue) : JsonValue
  | obj (fields : List (PyStr × JsonValue)) : JsonValue

/-- Python truthiness (`if results:`) on the values that can reach it:
`None` is handled at `Option`, empty containers and empty strings, zero
and `False` are falsy. -/
def pyTruthy : JsonValue → Bool
  | .null => false
  | .bool b => b
  | .num q => q != 0
  | .str s => !s.isEmpty
  | .arr l => !l.isEmpty
  | .obj f => !f.isEmpty

/-- Python `dict.get(k)`: the value bound to `k` (keys are unique, the
parser overwrites duplicates the way `dict` construction does). -/
def jsonGet (fields : List (PyStr × JsonValue)) (k : PyStr) : Option JsonValue :=
  match fields with
  | [] => none
  | (k', v) :: rest => if k' = k then some v else jsonGet rest k

/-- Python `d[k] = v` on a dict: replace the binding in place, append if
absent. -/
def objSet (fields : List (PyStr × JsonValue)) (k : PyStr) (v : JsonValue) :
    List (PyStr × JsonValue) :=
  match fields with
  | [] => [(k, v)]
  | (k', v') :: rest => if k' = k then (k, v) :: rest else (k', v') :: objSet rest k v

/-- All-strings view of a JSON array (`color.strip()` in the
canonicalization loop raises `AttributeError` on any non-string). -/
def asStrings : List JsonValue → Option (List PyStr)
  | [] => some []
  | .str s :: rest => (asStrings rest).map (s :: ·)
  | _ :: _ => none

/-- Hex digit character for `\uXXXX` escapes (lower case). -/
def hexDigitChar (n : Nat) : Char :=
  if n < 10 then Char.ofNat (48 + n) else Char.ofNat (87 + n)

/-- `json.dumps` escaping of one string character (ASCII model: `"`,
`\` and non-printable characters; Python's short escapes `\n` etc. and
surrogate pairs are collapsed into the `\uXXXX` form, which no analyzed
property observes). -/
def escapeChar (c : Char) : PyStr :=
  if c = '"' then ['\\', '"']
  else if c = '\\' then ['\\', '\\']
  else if c.toNat < 32 || c.toNat > 126 then
    ['\\', 'u', hexDigitChar (c.toNat / 4096 % 16), hexDigitChar (c.toNat / 256 % 16),
      hexDigitChar (c.toNat / 16 % 16), hexDigitChar (c.toNat % 16)]
  else [c]

/-- `json.dumps` of a string. -/
def dumpStr (s : PyStr) : PyStr :=
  '"' :: (s.foldr (fun c acc => escapeChar c ++ acc) ['"'])

/-- `json.dumps` of a number.  Integers render exactly; non-integral
rationals use a nominal `num/den` rendering (Python renders a float in
decimal notation — no analyzed property serializes a non-integer). -/
def dumpNum (q : Rat) : PyStr :=
  if q.den = 1 then pys (toString q.num)
  else pys (toString q.num) ++ '/' :: pys (toString q.den)

mutual

/-- `json.dumps` with its default separators `", "` and `": "`. -/
def jsonDumps : JsonValue → PyStr
  | .null => pys "null"
  | .bool true => pys "true"
  | .bool false => pys "false"
  | .num q => dumpNum q
  | .str s => dumpStr s
  | .arr l => '[' :: dumpElems l ++ [']']
  | .obj f => lbrace :: dumpFields f ++ [rbrace]

/-- Comma-separated rendering of array elements. -/
def dumpElems : List JsonValue → PyStr
  | [] => []
  | [v] => jsonDumps v
  | v :: rest => jsonDumps v ++ ',' :: ' ' :: dumpElems rest

/-- Comma-separated rendering of object members. -/
def dumpFields : List (PyStr × JsonValue) → PyStr
  | [] => []
  | [(k, v)] => dumpStr k ++ ':' :: ' ' :: jsonDumps v
  | (k, v) :: rest => dumpStr k ++ (':' :: ' ' :: jsonDumps v) ++ ',' :: ' ' :: dumpFields rest

end

/-! The JSON parser (`json.loads`).  Recursive descent with a fuel
parameter bounding the recursion depth; `jsonLoads` supplies fuel that
dominates the input length, so fuel exhaustion never occurs for the
inputs evaluated here, and an out-of-fuel result is a parse failure just
like a syntax error (`json.JSONDecodeError`). -/

/-- JSON structural whitespace. -/
def isJsonWs (c : Char) : Bool := c = ' ' || c = '\t' || c = '\n' || c = '\r'

/-- Skip structural whitespace. -/
def skipWs (s : PyStr) : PyStr := s.dropWhile isJsonWs

/-- Value of one hex digit. -/
def hexVal (c : Char) : Option Nat :=
  if '0' ≤ c && c ≤ '9' then some (c.toNat - 48)
  else if 'a' ≤ c && c ≤ 'f' then some (c.toNat - 87)
  else if 'A' ≤ c && c ≤ 'F' then some (c.toNat - 55)
  else none

/-- Short escape table of JSON strings. -/
def escMapChar (c : Char) : Option Char :=
  if c = '"' then some '"'
  else if c = '\\' then some '\\'
  else if c = '/' then some '/'
  else if c = 'b' then some (Char.ofNat 8)
  else if c = 'f' then some (Char.ofNat 12)
  else if c = 'n' then some '\n'
  else if c = 'r' then some '\r'
  else if c = 't' then some '\t'
  else none

/-- Parse the body of a JSON string after the opening quote; returns the
decoded content and the remainder after the closing quote.  Unescaped
control characters are rejected (Python's default `strict=True`). -/
def parseStringBody : Nat → PyStr → Option (PyStr × PyStr)
  | 0, _ => none
  | _, [] => none
  | fuel + 1, c :: rest =>
    if c = '"' then some ([], rest)
    else if c = '\\' then
      match rest with
      | [] => none
      | e :: rest2 =>
        if e = 'u' then
          match rest2 with
          | a :: b :: c2 :: d :: rest3 =>
            match hexVal a, hexVal b, hexVal c2, hexVal d with
            | some ha, some hb, some hc, some hd =>
              match parseStringBody fuel rest3 with
              | some (cs, r) =>
                some (Char.ofNat (ha * 4096 + hb * 256 + hc * 16 + hd) :: cs, r)
              | none => none
            | _, _, _, _ => none
          | _ => none
        else
          match escMapChar e with
          | some ec =>
            match parseStringBody fuel rest2 with
            | some (cs, r) => some (ec :: cs, r)
            | none => none
          | none => none
    else if c.toNat < 32 then none
    else
      match parseStringBody fuel rest with
      | some (cs, r) => some (c :: cs, r)
      | none => none

/-- Decimal digits prefix and remainder. -/
def spanDigits (s : PyStr) : PyStr × PyStr :=
  (s.takeWhile Char.isDigit, s.dropWhile Char.isDigit)

/-- Numeric value of a digit string. -/
def digitsToNat (ds : PyStr) : Nat :=
  ds.foldl (fun acc c => acc * 10 + (c.toNat - 48)) 0

/-- Assemble an exact rational from the parsed parts of a JSON number:
sign, integer digits, fraction digits (possibly none) and signed
exponent digits (possibly none). -/
def assembleNumber (neg : Bool) (ids fds : PyStr) (eneg : Bool) (eds : PyStr) : Rat :=
  let mant : Nat := digitsToNat (ids ++ fds)
  let mag : Nat := if eneg then mant else mant * 10 ^ digitsToNat eds
  let den : Nat := if eneg then 10 ^ (fds.length + digitsToNat eds) else 10 ^ fds.length
  if neg then -(mkRat (mag : Int) den) else mkRat (mag : Int) den

/-- Parse a JSON number (sign, integer part without leading zeros,
optional fraction, optional exponent) into an exact rational. -/
def parseNumber (s : PyStr) : Option (Rat × PyStr) :=
  let (neg, s1) :=
    match s with
    | c :: r => if c = '-' then (true, r) else (false, s)
    | [] => (false, s)
  match s1 with
  | [] => none
  | c :: _ =>
    if !c.isDigit then none
    else
      let (ids, s2) := spanDigits s1
      if 1 < ids.length && ids.head? == some '0' then none
      else
        let fracStep : Option (PyStr × PyStr) :=
          match s2 with
          | '.' :: r =>
            let (fds, r') := spanDigits r
            if fds.isEmpty then none else some (fds, r')
          | _ => some ([], s2)
        match fracStep with
        | none => none
        | some (fds, s3) =>
          let expStep : Option (Bool × PyStr × PyStr) :=
            match s3 with
            | e :: r =>
              if e = 'e' || e = 'E' then
                let (eneg, r1) :=
                  match r with
                  | '-' :: r' => (true, r')
                  | '+' :: r' => (false, r')
                  | _ => (false, r)
                let (eds, r2) := spanDigits r1
                if eds.isEmpty then none else some (eneg, eds, r2)
              else some (false, [], s3)
            | [] => some (false, [], s3)
          match expStep with
          | none => none
          | some (eneg, eds, s4) => some (assembleNumber neg ids fds eneg eds, s4)

mutual

/-- Parse one JSON value at the head of the input. -/
def parseValue : Nat → PyStr → Option (JsonValue × PyStr)
  | 0, _ => none
  | fuel + 1, s =>
    match s with
    | [] => none
    | c :: rest =>
      if c = lbrace then
        match skipWs rest with
        | c2 :: r2 => if c2 = rbrace then some (.obj [], r2) else parseMembers fuel (skipWs rest) []
        | [] => none
      else if c = '[' then
        match skipWs rest with
        | c2 :: r2 => if c2 = ']' then some (.arr [], r2) else parseElems fuel (skipWs rest) []
        | [] => none
      else if c = '"' then
        match parseStringBody (fuel + 1) rest with
        | some (str, r) => some (.str str, r)
        | none => none
      else if c = 't' then
        if rest.take 3 = pys "rue" then some (.bool true, rest.drop 3) else none
      else if c = 'f' then
        if rest.take 4 = pys "alse" then some (.bool false, rest.drop 4) else none
      else if c = 'n' then
        if rest.take 3 = pys "ull" then some (.null, rest.drop 3) else none
      else
        match parseNumber s with
        | some (q, r) => some (.num q, r)
        | none => none

/-- Parse the members of a JSON object, positioned at a key. -/
def parseMembers : Nat → PyStr → List (PyStr × JsonValue) →
    Option (JsonValue × PyStr)
  | 0, _, _ => none
  | fuel + 1, s, acc =>
    match s with
    | c :: rest =>
      if c = '"' then
        match parseStringBody (fuel + 1) rest with
        | some (key, r1) =>
          match skipWs r1 with
          | ':' :: r2 =>
            match parseValue fuel (skipWs r2) with
            | some (v, r3) =>
              let acc' := objSet acc key v
              match skipWs r3 with
              | ',' :: r4 => parseMembers fuel (skipWs r4) acc'
              | c2 :: r4 => if c2 = rbrace then some (.obj acc', r4) else none
              | [] => none
            | none => none
          | _ => none
        | none => none
      else none
    | [] => none

/-- Parse the elements of a JSON array, positioned at an element. -/
def parseElems : Nat → PyStr → List JsonValue → Option (JsonValue × PyStr)
  | 0, _, _ => none
  | fuel + 1, s, acc =>
    match parseValue fuel s with
    | some (v, r1) =>
      match skipWs r1 with
      | ',' :: r2 => parseElems fuel (skipWs r2) (acc ++ [v])
      | c2 :: r2 => if c2 = ']' then some (.arr (acc ++ [v]), r2) else none
      | [] => none
    | none => none

end

/-- `json.loads`: parse a complete JSON document; trailing non-space
input is a failure (`Extra data`). -/
def jsonLoads (s : PyStr) : Option JsonValue :=
  match parseValue (2 * s.length + 8) (skipWs s) with
  | some (v, rest) => if (skipWs rest).isEmpty then some v else none
  | none => none

/-- The JSON-object extraction of `analyze_outfit_image`
(`src/utils/llm.py` lines 150-156): slice from the first `{` to the last
`}` inclusive; `none` when either is absent or `json_end <= json_start`
(the `ValueError` path). -/
def extractJson (raw : PyStr) : Option PyStr :=
  match pyFind lbrace raw, pyRFind rbrace raw with
  | some js, some je => if je ≤ js then none else some ((raw.drop js).take (je + 1 - js))
  | _, _ => none

/-! The record store (`src/database/db.py`).  One row of the `outfits`
table; `update_analysis_status` is the single-statement
`UPDATE outfits SET analysis_status = ?, analysis_results = ? WHERE id = ?`. -/

/-- One row of the `outfits` table. -/
structure OutfitRow where
  id : PyStr
  user_id : PyStr
  image_path : PyStr
  name : Option PyStr
  tags : Option PyStr
  created_at : PyStr
  analysis_status : PyStr
  analysis_results : Option PyStr
deriving DecidableEq

/-- Line 71 of `src/database/db.py`:
`analysis_json = json.dumps(results) if results else None` — the stored
`analysis_results` column value. -/
def analysisJsonOf (results : Option JsonValue) : Option PyStr :=
  match results with
  | some v => if pyTruthy v then some (jsonDumps v) else none
  | none => none

/-- `update_analysis_status(outfit_id, status, results)` of
`src/database/db.py` (lines 63-86): set both columns on every row whose
`id` matches (zero rows affected is not an error). -/
def update_analysis_status (db : List OutfitRow) (outfit_id status : PyStr)
    (results : Option JsonValue) : List OutfitRow :=
  db.map fun r =>
    if r.id = outfit_id then
      { r with analysis_status := status, analysis_results := analysisJsonOf results }
    else r

/-! The status state machine driver (`analyze_outfit_image` in
`src/utils/llm.py`, lines 78-177).  The outside world — image
resolution, the provider call — is an oracle `Env`; exceptions are the
`Exception` subclasses the code distinguishes, raised through an
`Except` monad; the function's observable effect is the list of
`update_analysis_status` calls it performs. -/

/-- The exception classes the driver's `except` clauses distinguish.
All are subclasses of Python's `Exception` (`otherError` standing for
any other such subclass). -/
inductive ExcKind where
  | urlError
  | fileNotFound
  | jsonDecodeError
  | valueError
  | otherError
deriving DecidableEq

/-- A raised Python exception: class and message (`str(e)`). -/
structure PyExc where
  kind : ExcKind
  msg : PyStr
deriving DecidableEq

/-- One `update_analysis_status` call performed by the driver. -/
structure Write where
  outfit_id : PyStr
  status : PyStr
  results : Option JsonValue

/-- What `urllib.request.urlopen(...).read()` plus the `Content-Type`
header yield when the remote fetch succeeds. -/
structure FetchResp where
  data : PyStr
  contentType : Option PyStr
deriving DecidableEq

/-- The oracle for one driver invocation: the two arguments and what
each external operation would do if reached. -/
structure Env where
  image_path : PyStr
  outfit_id : PyStr
  fetch : Except PyExc FetchResp
  readFile : Except PyExc PyStr
  generate : Except PyExc (Option PyStr)

/-- Line 89: `image_path.startswith("http://") or image_path.startswith("https://")`. -/
def isRemoteUrl (p : PyStr) : Bool :=
  pyStartswith (pys "http://") p || pyStartswith (pys "https://") p

/-- Lines 95-96: `content_type.split(";")[0].strip()` with the header
defaulting to `image/jpeg`. -/
def mimeFromContentType (ct : Option PyStr) : PyStr :=
  pyStrip ((ct.getD (pys "image/jpeg")).takeWhile (· ≠ ';'))

/-- `Path(image_path).suffix`: from the last `.` of the final path
component (empty when there is no dot or the name starts with the dot). -/
def pathSuffix (p : PyStr) : PyStr :=
  let base :=
    match pyRFind '/' p with
    | some i => p.drop (i + 1)
    | none => p
  match pyRFind '.' base with
  | some i => if i = 0 then [] else base.drop i
  | none => []

/-- Lines 111-117: extension → MIME type table with `image/jpeg` default. -/
def mimeFromExt (p : PyStr) : PyStr :=
  let ext := pyLower (pathSuffix p)
  match mapLookup
    [ (pys ".jpg", pys "image/jpeg")
    , (pys ".jpeg", pys "image/jpeg")
    , (pys ".png", pys "image/png")
    , (pys ".webp", pys "image/webp")
    ] ext with
  | some m => m
  | none => pys "image/jpeg"

/-- Lines 159-161: `analysis["colors"] = convert_color_names_to_hex(...)`
when `analysis.get("colors")` is a list.  A non-string element makes
`color.strip()` raise `AttributeError` (an `Exception` subclass). -/
def normalizeColors (fields : List (PyStr × JsonValue)) :
    Except PyExc (List (PyStr × JsonValue)) :=
  match jsonGet fields (pys "colors") with
  | some (.arr elems) =>
    match asStrings elems with
    | some strs =>
      .ok (objSet fields (pys "colors")
        (.arr ((convert_color_names_to_hex (some strs)).map .str)))
    | none => .error ⟨.otherError, pys "AttributeError"⟩
  | _ => .ok fields

/-- Lines 157-161: `json.loads` on the extracted slice, then color
normalization.  A non-object top level would make `analysis.get` raise
`AttributeError`; it is unreachable for slices starting at `{`. -/
def parseAndNormalize (json_str : PyStr) : Except PyExc (List (PyStr × JsonValue)) :=
  match jsonLoads json_str with
  | none => .error ⟨.jsonDecodeError, pys "Expecting value"⟩
  | some (.obj fields) => normalizeColors fields
  | some _ => .error ⟨.otherError, pys "AttributeError"⟩

/-- Lines 119-164: everything after image resolution — the provider
call, strip, empty check, extraction, parse, normalization, and the
`completed` write.  The two resolution arguments are threaded but (as in
the source) only consumed by the provider call, which the oracle
answers. -/
def afterResolve (env : Env) (image_data mime_type : PyStr) :
    Except PyExc (List Write) :=
  match env.generate with
  | .error e => .error e
  | .ok textOpt =>
    let raw_text := pyStrip (textOpt.getD [])
    if raw_text.isEmpty then
      .error ⟨.valueError, pys "Empty response from Gemini"⟩
    else
      match extractJson raw_text with
      | none => .error ⟨.valueError, pys "No JSON object found in response"⟩
      | some json_str =>
        match parseAndNormalize json_str with
        | .error e => .error e
        | .ok fields => .ok [⟨env.outfit_id, pys "completed", some (.obj fields)⟩]

/-- The body of the driver's outer `try` (lines 87-164), including the
two inner `try/except` clauses with their early-return `failed` writes
carrying a `json.dumps`-encoded error payload. -/
def analyzeBody (env : Env) : Except PyExc (List Write) :=
  if isRemoteUrl env.image_path then
    match env.fetch with
    | .error e =>
      if e.kind = ExcKind.urlError then
        .ok [⟨env.outfit_id, pys "failed",
          some (.str (jsonDumps (.obj [(pys "error",
            .str (pys "Failed to download image: " ++ e.msg))])))⟩]
      else .error e
    | .ok resp => afterResolve env resp.data (mimeFromContentType resp.contentType)
  else
    match env.readFile with
    | .error e =>
      if e.kind = ExcKind.fileNotFound then
        .ok [⟨env.outfit_id, pys "failed",
          some (.str (jsonDumps (.obj [(pys "error",
            .str (pys "Image file not found"))])))⟩]
      else .error e
    | .ok contents => afterResolve env contents (mimeFromExt env.image_path)

/-- `analyze_outfit_image(image_path, outfit_id)` (lines 78-177): the
`try` body guarded by the `except json.JSONDecodeError`,
`except ValueError` and `except Exception` clauses, each of which writes
`failed` with no results argument. -/
def analyze_outfit_image (env : Env) : Except PyExc (List Write) :=
  match analyzeBody env with
  | .ok writes => .ok writes
  | .error e =>
    match e.kind with
    | .jsonDecodeError => .ok [⟨env.outfit_id, pys "failed", none⟩]
    | .valueError => .ok [⟨env.outfit_id, pys "failed", none⟩]
    | _ => .ok [⟨env.outfit_id, pys "failed", none⟩]

/-- The image bytes and MIME type resolution yields when it succeeds. -/
def resolveOutcome (env : Env) : Option (PyStr × PyStr) :=
  if isRemoteUrl env.image_path then
    match env.fetch with
    | .ok resp => some (resp.data, mimeFromContentType resp.contentType)
    | .error _ => none
  else
    match env.readFile with
    | .ok contents => some (contents, mimeFromExt env.image_path)
    | .error _ => none

/-- Whether the invocation fails at image resolution with the exception
class the code catches there (`URLError` on a remote reference,
`FileNotFoundError` on a local one). -/
def resolutionFailed (env : Env) : Bool :=
  if isRemoteUrl env.image_path then
    match env.fetch with
    | .error e => e.kind = ExcKind.urlError
    | .ok _ => false
  else
    match env.readFile with
    | .error e => e.kind = ExcKind.fileNotFound
    | .ok _ => false

/-! Spec-side index predicates, written from §4.2 step 1 of the spec:
"the first `{`" and "the last `}`" of the raw text. -/

/-- Spec-side: `i` is the index of the first occurrence of `c` in `s`. -/
def isFirstIndexOf (s : PyStr) (c : Char) (i : Nat) : Prop :=
  s[i]? = some c ∧ ∀ k, k < i → s[k]? ≠ some c

/-- Spec-side: `j` is the index of the last occurrence of `c` in `s`. -/
def isLastIndexOf (s : PyStr) (c : Char) (j : Nat) : Prop :=
  s[j]? = some c ∧ ∀ k, j < k → s[k]? ≠ some c

/-! Correctness of the `find`/`rfind` models. -/

theorem pyFind_spec (c : Char) :
    ∀ (s : PyStr) (i : Nat), pyFind c s = some i ↔ isFirstIndexOf s c i := by
  intro s
  induction s with
  | nil => intro i; simp [pyFind, isFirstIndexOf]
  | cons x xs ih =>
    intro i
    unfold isFirstIndexOf at *
    by_cases hx : x = c
    · subst hx
      simp only [pyFind, if_pos rfl]
      constructor
      · rintro h
        obtain rfl : i = 0 := by simpa using h.symm
        exact ⟨by simp, fun k hk => absurd hk (Nat.not_lt_zero k)⟩
      · rintro ⟨hi, hmin⟩
        cases i with
        | zero => rfl
        | succ j => exact absurd (by simp : (x :: xs)[0]? = some x) (hmin 0 (Nat.succ_pos j))
    · simp only [pyFind, if_neg hx]
      constructor
      · intro h
        obtain ⟨j, hj, rfl⟩ : ∃ j, pyFind c xs = some j ∧ i = j + 1 := by
          cases hfx : pyFind c xs with
          | none => rw [hfx] at h; simp at h
          | some j => rw [hfx] at h; exact ⟨j, rfl, by simpa using h.symm⟩
        obtain ⟨hj1, hj2⟩ := (ih j).mp hj
        refine ⟨by simpa using hj1, ?_⟩
        intro k hk
        cases k with
        | zero => simpa using fun hcc => hx hcc
        | succ k' => simpa using hj2 k' (by omega)
      · rintro ⟨hi, hmin⟩
        cases i with
        | zero => exact absurd (by simpa using hi) hx
        | succ j =>
          have : pyFind c xs = some j := by
            refine (ih j).mpr ⟨by simpa using hi, ?_⟩
            intro k hk
            have := hmin (k + 1) (by omega)
            simpa using this
          rw [this]
          rfl

theorem pyFind_eq_none (c : Char) :
    ∀ s : PyStr, pyFind c s = none ↔ ∀ k : Nat, s[k]? ≠ some c := by
  intro s
  induction s with
  | nil => simp [pyFind]
  | cons x xs ih =>
    by_cases hx : x = c
    · subst hx
      simp only [pyFind, if_pos rfl]
      constructor
      · intro h; simp at h
      · intro h; exact absurd (by simp : (x :: xs)[0]? = some x) (h 0)
    · simp only [pyFind, if_neg hx]
      constructor
      · intro h k
        cases k with
        | zero => simpa using fun hcc => hx hcc
        | succ k' =>
          have : pyFind c xs = none := by
            cases hfx : pyFind c xs with
            | none => rfl
            | some j => rw [hfx] at h; simp at h
          simpa using (ih.mp this) k'
      · intro h
        have : pyFind c xs = none := ih.mpr fun k => by simpa using h (k + 1)
        rw [this]; rfl

theorem pyRFind_eq_none (c : Char) :
    ∀ s : PyStr, pyRFind c s = none ↔ ∀ k : Nat, s[k]? ≠ some c := by
  intro s
  induction s with
  | nil => simp [pyRFind]
  | cons x xs ih =>
    unfold pyRFind
    cases hfx : pyRFind c xs with
    | some j =>
      constructor
      · intro h; simp at h
      · intro hall
        exfalso
        have : pyRFind c xs = none := ih.mpr fun k => by simpa using hall (k + 1)
        rw [this] at hfx
        exact absurd hfx (by simp)
    | none =>
      by_cases hx : x = c
      · subst hx
        simp only [if_pos rfl]
        constructor
        · intro h; simp at h
        · intro h; exact absurd (by simp : (x :: xs)[0]? = some x) (h 0)
      · simp only [if_neg hx]
        constructor
        · intro _ k
          cases k with
          | zero => simpa using fun hcc => hx hcc
          | succ k' => simpa using (ih.mp hfx) k'
        · intro _; trivial

theorem pyRFind_spec (c : Char) :
    ∀ (s : PyStr) (j : Nat), pyRFind c s = some j ↔ isLastIndexOf s c j := by
  intro s
  induction s with
  | nil => intro j; simp [pyRFind, isLastIndexOf]
  | cons x xs ih =>
    intro j
    unfold isLastIndexOf at *
    unfold pyRFind
    cases hfx : pyRFind c xs with
    | some i =>
      simp only []
      obtain ⟨hi1, hi2⟩ := (ih i).mp hfx
      constructor
      · intro h
        obtain rfl : j = i + 1 := by simpa using h.symm
        refine ⟨by simpa using hi1, ?_⟩
        intro k hk
        cases k with
        | zero => omega
        | succ k' => simpa using hi2 k' (by omega)
      · rintro ⟨hj1, hj2⟩
        cases j with
        | zero => exact absurd (by simpa using hi1 : (x :: xs)[i + 1]? = some c) (hj2 (i + 1) (by omega))
        | succ j' =>
          obtain rfl : j' = i := by
            have : pyRFind c xs = some j' := by
              refine (ih j').mpr ⟨by simpa using hj1, ?_⟩
              intro k hk
              simpa using hj2 (k + 1) (by omega)
            rw [this] at hfx
            simpa using hfx
          rfl
    | none =>
      have hnone := (pyRFind_eq_none c xs).mp hfx
      by_cases hx : x = c
      · subst hx
        simp only [if_pos rfl]
        constructor
        · intro h
          obtain rfl : j = 0 := by simpa using h.symm
          refine ⟨by simp, ?_⟩
          intro k hk
          cases k with
          | zero => omega
          | succ k' => simpa using hnone k'
        · rintro ⟨hj1, hj2⟩
          cases j with
          | zero => rfl
          | succ j' => exact absurd (by simpa using hj1) (hnone j')
      · simp only [if_neg hx]
        constructor
        · intro h; simp at h
        · rintro ⟨hj1, hj2⟩
          cases j with
          | zero => exact absurd (by simpa using hj1) hx
          | succ j' => exact absurd (by simpa using hj1) (hnone j')

theorem pyFind_append_of_not_mem (c : Char) (l₁ l₂ : PyStr) (h : c ∉ l₁) :
    pyFind c (l₁ ++ l₂) = (pyFind c l₂).map (· + l₁.length) := by
  induction l₁ with
  | nil =>
    cases hf : pyFind c l₂ <;> simp [hf]
  | cons x xs ih =>
    have hx : ¬ x = c := fun hxc => h (by simp [hxc])
    rw [List.cons_append]
    simp only [pyFind, if_neg hx, ih (fun hc => h (List.mem_cons_of_mem _ hc))]
    cases hf : pyFind c l₂ with
    | none => rfl
    | some i => simp; omega

theorem pyRFind_append_left (c : Char) (l₁ l₂ : PyStr) (i : Nat)
    (h : pyRFind c l₂ = some i) :
    pyRFind c (l₁ ++ l₂) = some (l₁.length + i) := by
  induction l₁ with
  | nil => simpa using h
  | cons x xs ih =>
    rw [List.cons_append]
    simp only [pyRFind, ih]
    simp; omega

theorem pyRFind_eq_none_of_not_mem (c : Char) (l : PyStr) (h : c ∉ l) :
    pyRFind c l = none := by
  refine (pyRFind_eq_none c l).mpr fun k hk => ?_
  exact h (List.getElem?_mem hk)

theorem pyRFind_append_none (c : Char) (l₁ l₂ : PyStr) (h : pyRFind c l₂ = none) :
    pyRFind c (l₁ ++ l₂) = pyRFind c l₁ := by
  induction l₁ with
  | nil => simpa using h
  | cons x xs ih =>
    rw [List.cons_append]
    simp only [pyRFind, ih]

/-! Characterization of the driver's behaviour, shared by the claims
about it. -/

theorem jsonDumps_obj_not_empty (f : List (PyStr × JsonValue)) :
    (jsonDumps (.obj f)).isEmpty = false := by
  simp [jsonDumps]

theorem afterResolve_cases (env : Env) (d m : PyStr) :
    (∃ e, afterResolve env d m = .error e) ∨
    (∃ fields, afterResolve env d m =
      .ok [⟨env.outfit_id, pys "completed", some (.obj fields)⟩]) := by
  unfold afterResolve
  cases env.generate with
  | error e => exact .inl ⟨e, rfl⟩
  | ok textOpt =>
    dsimp only
    split
    · exact .inl ⟨_, rfl⟩
    · split
      · exact .inl ⟨_, rfl⟩
      · split
        · exact .inl ⟨_, rfl⟩
        · exact .inr ⟨_, rfl⟩

theorem analyzeBody_cases (env : Env) :
    (∃ e, analyzeBody env = .error e ∧ resolutionFailed env = false) ∨
    (∃ s, analyzeBody env = .ok [⟨env.outfit_id, pys "failed", some (.str s)⟩] ∧
      s.isEmpty = false ∧ resolutionFailed env = true) ∨
    (∃ fields, analyzeBody env =
      .ok [⟨env.outfit_id, pys "completed", some (.obj fields)⟩] ∧
      resolutionFailed env = false) := by
  unfold analyzeBody resolutionFailed
  by_cases hu : isRemoteUrl env.image_path = true
  · rw [if_pos hu, if_pos hu]
    cases hf : env.fetch with
    | error e =>
      dsimp only
      by_cases hk : e.kind = ExcKind.urlError
      · rw [if_pos hk]
        exact .inr (.inl ⟨_, rfl, jsonDumps_obj_not_empty _, by simp [hk]⟩)
      · rw [if_neg hk]
        exact .inl ⟨e, rfl, by simp [hk]⟩
    | ok resp =>
      dsimp only
      rcases afterResolve_cases env resp.data (mimeFromContentType resp.contentType) with
        ⟨e, he⟩ | ⟨fields, hfld⟩
      · exact .inl ⟨e, he, rfl⟩
      · exact .inr (.inr ⟨fields, hfld, rfl⟩)
  · rw [if_neg hu, if_neg hu]
    cases hf : env.readFile with
    | error e =>
      dsimp only
      by_cases hk : e.kind = ExcKind.fileNotFound
      · rw [if_pos hk]
        exact .inr (.inl ⟨_, rfl, jsonDumps_obj_not_empty _, by simp [hk]⟩)
      · rw [if_neg hk]
        exact .inl ⟨e, rfl, by simp [hk]⟩
    | ok contents =>
      dsimp only
      rcases afterResolve_cases env contents (mimeFromExt env.image_path) with
        ⟨e, he⟩ | ⟨fields, hfld⟩
      · exact .inl ⟨e, he, rfl⟩
      · exact .inr (.inr ⟨fields, hfld, rfl⟩)

theorem analyze_char (env : Env) :
    ∃ w : Write, analyze_outfit_image env = .ok [w] ∧
      w.outfit_id = env.outfit_id ∧
      (w.status = pys "completed" ∨ w.status = pys "failed") ∧
      ((analysisJsonOf w.results).isSome = true ↔
        ((w.status = pys "completed" ∧ w.results ≠ some (JsonValue.obj [])) ∨
         (w.status = pys "failed" ∧ resolutionFailed env = true))) := by
  unfold analyze_outfit_image
  rcases analyzeBody_cases env with ⟨e, he, hrf⟩ | ⟨s, hb, hs, hrf⟩ | ⟨fields, hb, hrf⟩
  · rw [he]
    refine ⟨⟨env.outfit_id, pys "failed", none⟩, ?_, rfl, .inr rfl, ?_⟩
    · rcases e with ⟨k, msg⟩
      cases k <;> rfl
    · constructor
      · intro h; simp [analysisJsonOf] at h
      · rintro (⟨hc, -⟩ | ⟨-, hr⟩)
        · have hcc : pys "failed" = pys "completed" := hc
          exact absurd hcc (by decide)
        · rw [hrf] at hr; exact absurd hr (by decide)
  · rw [hb]
    refine ⟨_, rfl, rfl, .inr rfl, ?_⟩
    constructor
    · intro _
      exact .inr ⟨rfl, hrf⟩
    · intro _
      simp [analysisJsonOf, pyTruthy, hs]
  · rw [hb]
    refine ⟨_, rfl, rfl, .inl rfl, ?_⟩
    constructor
    · intro h
      left
      refine ⟨rfl, fun hcontra => ?_⟩
      obtain rfl : fields = [] := by simpa using hcontra
      simp [analysisJsonOf, pyTruthy] at h
    · rintro (⟨-, hne⟩ | ⟨hc, -⟩)
      · have hf : fields ≠ [] := fun h0 => hne (by rw [h0])
        simp [analysisJsonOf, pyTruthy, hf]
      · have hcc : pys "completed" = pys "failed" := hc
        exact absurd hcc (by decide)

theorem analyzeBody_resolved (env : Env) (d m : PyStr)
    (h : resolveOutcome env = some (d, m)) :
    analyzeBody env = afterResolve env d m := by
  unfold analyzeBody
  unfold resolveOutcome at h
  by_cases hu : isRemoteUrl env.image_path = true
  · rw [if_pos hu] at h ⊢
    cases hf : env.fetch with
    | error e => rw [hf] at h; simp at h
    | ok resp =>
      rw [hf] at h
      dsimp only
      simp only [Option.some.injEq, Prod.mk.injEq] at h
      rw [h.1, h.2]
  · rw [if_neg hu] at h ⊢
    cases hf : env.readFile with
    | error e => rw [hf] at h; simp at h
    | ok contents =>
      rw [hf] at h
      dsimp only
      simp only [Option.some.injEq, Prod.mk.injEq] at h
      rw [h.1, h.2]

/-- Claim C1, counterexample: on a remote image reference whose fetch
raises `URLError`, the Driver writes `status=failed` together with a
non-null `json.dumps`-encoded error payload, so a write on a `failed`
outcome does not leave the result null and the stated invariant fails. -/
theorem C1_counterexample :
    analyze_outfit_image ⟨pys "http://img.example/a.jpg", pys "rec-1",
        .error ⟨.urlError, pys "boom"⟩, .ok [], .ok none⟩ =
      .ok [⟨pys "rec-1", pys "failed",
        some (.str (pys "\x7b\"error\": \"Failed to download image: boom\"\x7d"))⟩] ∧
    (analysisJsonOf (some (.str
      (pys "\x7b\"error\": \"Failed to download image: boom\"\x7d")))).isSome = true := by
  exact ⟨rfl, rfl⟩

/-- Claim C1 as amended: every Driver invocation performs one write, and
the stored result is non-null iff either the write is `completed` with a
non-empty (truthy) analysis payload, or the write is `failed` because
image resolution failed with the exception class caught there (those two
paths attach a `json.dumps`-encoded error string); every other `failed`
write stores a null result, and a `completed` write of an empty object
stores null. -/
theorem C1_amended_result_nullability (env : Env) :
    ∃ w : Write, analyze_outfit_image env = .ok [w] ∧
      ((analysisJsonOf w.results).isSome = true ↔
        ((w.status = pys "completed" ∧ w.results ≠ some (JsonValue.obj [])) ∨
         (w.status = pys "failed" ∧ resolutionFailed env = true))) := by
  obtain ⟨w, hw, -, -, hiff⟩ := analyze_char env
  exact ⟨w, hw, hiff⟩

/-- Witness for C1 as amended, at a concrete environment. -/
theorem C1_amended_witness :
    ∃ w : Write,
      analyze_outfit_image ⟨pys "a.png", pys "rec-2", .ok ⟨[], none⟩,
        .error ⟨.fileNotFound, pys "gone"⟩, .ok none⟩ = .ok [w] ∧
      ((analysisJsonOf w.results).isSome = true ↔
        ((w.status = pys "completed" ∧ w.results ≠ some (JsonValue.obj [])) ∨
         (w.status = pys "failed" ∧
           resolutionFailed ⟨pys "a.png", pys "rec-2", .ok ⟨[], none⟩,
             .error ⟨.fileNotFound, pys "gone"⟩, .ok none⟩ = true))) :=
  C1_amended_result_nullability _

/-- Claim C2: whatever the environment does — any image reference, any
record id, any exception raised by the fetch, the local read, the
provider call, or any parse failure — the Driver returns normally and
never propagates an exception to its invoker. -/
theorem C2_never_propagates (env : Env) :
    ∃ writes, analyze_outfit_image env = .ok writes := by
  obtain ⟨w, hw, -⟩ := analyze_char env
  exact ⟨[w], hw⟩

/-- Witness for C2 at a concrete environment whose provider call raises. -/
theorem C2_witness :
    ∃ writes, analyze_outfit_image ⟨pys "b.jpg", pys "rec-3", .ok ⟨[], none⟩,
      .ok (pys "BYTES"), .error ⟨.otherError, pys "provider down"⟩⟩ = .ok writes :=
  C2_never_propagates _

/-- Claim C3: every invocation performs exactly one status write, for
its own record id, and the written status is `completed` or `failed`,
never `pending`. -/
theorem C3_exactly_one_terminal_write (env : Env) :
    ∃ w : Write, analyze_outfit_image env = .ok [w] ∧
      w.outfit_id = env.outfit_id ∧
      (w.status = pys "completed" ∨ w.status = pys "failed") ∧
      (w.status == pys "pending") = false := by
  obtain ⟨w, hw, ho, hs, -⟩ := analyze_char env
  refine ⟨w, hw, ho, hs, ?_⟩
  rcases hs with h | h <;> rw [h] <;> decide

/-- Witness for C3 at a concrete environment. -/
theorem C3_witness :
    ∃ w : Write,
      analyze_outfit_image ⟨pys "c.jpg", pys "rec-4", .ok ⟨[], none⟩,
        .ok (pys "BYTES"), .ok (some (pys "not json"))⟩ = .ok [w] ∧
      w.outfit_id = pys "rec-4" ∧
      (w.status = pys "completed" ∨ w.status = pys "failed") ∧
      (w.status == pys "pending") = false :=
  C3_exactly_one_terminal_write _

/-- Claim C6: object extraction succeeds exactly when the raw text has a
first `{` at some index `i` and a last `}` at some index `j` with
`j > i`, in which case it returns the inclusive slice between them; and
whenever image resolution and the provider call succeed but extraction
fails on the stripped response text, the Driver writes `failed` with no
result payload. -/
theorem C6_extraction_rule_and_driver_failure :
    (∀ raw s : PyStr, extractJson raw = some s ↔
      ∃ i j : Nat, isFirstIndexOf raw lbrace i ∧ isLastIndexOf raw rbrace j ∧
        i < j ∧ s = (raw.drop i).take (j + 1 - i)) ∧
    (∀ (env : Env) (d m : PyStr) (t : Option PyStr),
      resolveOutcome env = some (d, m) → env.generate = .ok t →
      extractJson (pyStrip (t.getD [])) = none →
      analyze_outfit_image env = .ok [⟨env.outfit_id, pys "failed", none⟩]) := by
  constructor
  · intro raw s
    unfold extractJson
    cases hf : pyFind lbrace raw with
    | none =>
      cases hr : pyRFind rbrace raw with
      | none =>
        constructor
        · intro h; simp at h
        · rintro ⟨i, j, hfi, -, -, -⟩
          rw [(pyFind_spec lbrace raw i).mpr hfi] at hf
          simp at hf
      | some j' =>
        constructor
        · intro h; simp at h
        · rintro ⟨i, j, hfi, -, -, -⟩
          rw [(pyFind_spec lbrace raw i).mpr hfi] at hf
          simp at hf
    | some i' =>
      cases hr : pyRFind rbrace raw with
      | none =>
        constructor
        · intro h; simp at h
        · rintro ⟨i, j, -, hlj, -, -⟩
          rw [(pyRFind_spec rbrace raw j).mpr hlj] at hr
          simp at hr
      | some j' =>
        dsimp only
        by_cases hle : j' ≤ i'
        · rw [if_pos hle]
          constructor
          · intro h; simp at h
          · rintro ⟨i, j, hfi, hlj, hij, -⟩
            rw [(pyFind_spec lbrace raw i).mpr hfi] at hf
            rw [(pyRFind_spec rbrace raw j).mpr hlj] at hr
            obtain rfl : i = i' := by simpa using hf
            obtain rfl : j = j' := by simpa using hr
            omega
        · rw [if_neg hle]
          constructor
          · intro h
            obtain rfl : s = (raw.drop i').take (j' + 1 - i') := by simpa using h.symm
            exact ⟨i', j', (pyFind_spec lbrace raw i').mp hf,
              (pyRFind_spec rbrace raw j').mp hr, by omega, rfl⟩
          · rintro ⟨i, j, hfi, hlj, hij, hs⟩
            rw [(pyFind_spec lbrace raw i).mpr hfi] at hf
            rw [(pyRFind_spec rbrace raw j).mpr hlj] at hr
            obtain rfl : i = i' := by simpa using hf
            obtain rfl : j = j' := by simpa using hr
            rw [hs]
  · intro env d m t hres hgen hext
    unfold analyze_outfit_image
    rw [analyzeBody_resolved env d m hres]
    unfold afterResolve
    rw [hgen]
    dsimp only
    by_cases he : (pyStrip (t.getD [])).isEmpty = true
    · rw [if_pos he]
    · rw [if_neg he, hext]

/-- Witness for C6: a local-file environment whose provider returns text
with no braces; the Driver writes `failed` with no payload. -/
theorem C6_witness :
    analyze_outfit_image ⟨pys "pic.png", pys "rec-6", .error ⟨.otherError, []⟩,
        .ok (pys "DATA"), .ok (some (pys "no json here"))⟩ =
      .ok [⟨pys "rec-6", pys "failed", none⟩] :=
  C6_extraction_rule_and_driver_failure.2 _ (pys "DATA") (pys "image/png")
    (some (pys "no json here")) rfl rfl rfl

/-- Claim C8: updating the analysis status of a record id that is not in
the store is a silent no-op — nothing is raised (the model is a total
function) and every existing record is returned unchanged. -/
theorem C8_missing_record_noop (db : List OutfitRow) (oid status : PyStr)
    (results : Option JsonValue) (h : ∀ r ∈ db, r.id ≠ oid) :
    update_analysis_status db oid status results = db := by
  unfold update_analysis_status
  induction db with
  | nil => rfl
  | cons r rest ih =>
    rw [List.map_cons, if_neg (h r (by simp)), ih (fun r' hr' => h r' (by simp [hr']))]

/-- Witness for C8: a one-row store updated under a different id. -/
theorem C8_witness :
    update_analysis_status
      [⟨pys "a", pys "u", pys "p.jpg", none, none, pys "t0", pys "pending", none⟩]
      (pys "b") (pys "failed") none =
      [⟨pys "a", pys "u", pys "p.jpg", none, none, pys "t0", pys "pending", none⟩] :=
  C8_missing_record_noop _ _ _ _ (by decide)

/-- Claim C9: a falsy `results` argument — `None`, the empty dict, or
the empty string — makes `update_analysis_status` store SQL `NULL` in
`analysis_results`, whatever status is being written. -/
theorem C9_falsy_results_store_null (db : List OutfitRow) (oid status : PyStr)
    (results : Option JsonValue)
    (h : results = none ∨ results = some (JsonValue.obj []) ∨
      results = some (JsonValue.str [])) :
    analysisJsonOf results = none ∧
    update_analysis_status db oid status results =
      db.map fun r =>
        if r.id = oid then
          { r with analysis_status := status, analysis_results := none }
        else r := by
  have hn : analysisJsonOf results = none := by
    rcases h with rfl | rfl | rfl <;> rfl
  refine ⟨hn, ?_⟩
  unfold update_analysis_status
  rw [hn]

/-- Witness for C9: a `completed` write with an empty payload object
stores a null result. -/
theorem C9_witness :
    analysisJsonOf (some (JsonValue.obj [])) = none ∧
    update_analysis_status
      [⟨pys "a", pys "u", pys "p.jpg", none, none, pys "t0", pys "pending", none⟩]
      (pys "a") (pys "completed") (some (JsonValue.obj [])) =
      [⟨pys "a", pys "u", pys "p.jpg", none, none, pys "t0", pys "completed", none⟩] := by
  have h := C9_falsy_results_store_null
    [⟨pys "a", pys "u", pys "p.jpg", none, none, pys "t0", pys "pending", none⟩]
    (pys "a") (pys "completed") (some (JsonValue.obj [])) (.inr (.inl rfl))
  exact ⟨h.1, by rw [h.2]; rfl⟩

/-- The concrete inner object of the spec's normalizer test vector. -/
def c5inner : PyStr := pys "\x7b \"colors\": [\"Red\", \"#112233\", \"notacolor\"] \x7d"

/-- Claim C5: for any prefix and suffix containing no braces around the
inner object `{ "colors": ["Red", "#112233", "notacolor"] }`, extraction
returns exactly the inner object, and parsing plus color
canonicalization yields `colors == ["#EF4444", "#112233", "#9CA3AF"]`. -/
theorem C5_normalizer_test_vector (pre suf : PyStr)
    (h1 : lbrace ∉ pre) (h2 : rbrace ∉ pre)
    (h3 : lbrace ∉ suf) (h4 : rbrace ∉ suf) :
    extractJson (pre ++ c5inner ++ suf) = some c5inner ∧
    parseAndNormalize c5inner =
      .ok [(pys "colors", .arr
        [.str (pys "#EF4444"), .str (pys "#112233"), .str (pys "#9CA3AF")])] := by
  constructor
  · have hfind : pyFind lbrace (pre ++ c5inner ++ suf) = some pre.length := by
      rw [List.append_assoc, pyFind_append_of_not_mem lbrace pre _ h1,
        (show pyFind lbrace (c5inner ++ suf) = some 0 from rfl)]
      simp
    have hrfind : pyRFind rbrace (pre ++ c5inner ++ suf) = some (pre.length + 44) := by
      rw [pyRFind_append_none rbrace (pre ++ c5inner) suf
          (pyRFind_eq_none_of_not_mem rbrace suf h4),
        pyRFind_append_left rbrace pre c5inner 44 rfl]
    unfold extractJson
    rw [hfind, hrfind]
    dsimp only
    rw [if_neg (show ¬ (pre.length + 44 ≤ pre.length) from by omega)]
    simp only [show pre.length + 44 + 1 - pre.length = 45 from by omega]
    rw [List.append_assoc, List.drop_left]
    rw [List.take_left' (show c5inner.length = 45 from rfl)]
  · rfl

/-- Witness for C5, with the spec's literal `prefix ` and ` suffix`. -/
theorem C5_witness :
    extractJson (pys "prefix " ++ c5inner ++ pys " suffix") = some c5inner ∧
    parseAndNormalize c5inner =
      .ok [(pys "colors", .arr
        [.str (pys "#EF4444"), .str (pys "#112233"), .str (pys "#9CA3AF")])] :=
  C5_normalizer_test_vector (pys "prefix ") (pys " suffix")
    (by decide) (by decide) (by decide) (by decide)

end PsiBackend
